import Mathlib

/-!
Shallow embedding of the data-validation checks of
`src/data_check/test_data.py` and of the cleaning stage of
`src/basic_cleaning/run.py`.

Conventions of the embedding:

* A pandas column of floating-point numbers is modelled as
  `List (Option ℚ)`; `none` models a missing value (NaN).
  `Series.between` evaluates to `False` on NaN, which the model mirrors.
  The checks on coordinates and prices read only the `price`, `longitude`
  and `latitude` columns, so a row is modelled by those three fields.
* A column of strings is modelled as `List (Option String)`.
  `Series.unique()` keeps a missing value as one of the distinct values,
  while `Series.value_counts()` drops missing values; the model mirrors
  both behaviours.
* `scipy.stats.entropy(pk, qk, base=2)` normalises both count vectors and
  returns the sum of the terms `p_i * log2 (p_i / q_i)`, with the
  `rel_entr` convention that a term with `p_i = 0` contributes `0`.  The
  two vectors are the value counts of the two datasets, each sorted by its
  own category labels.  When the two vectors have different lengths NumPy
  raises a shape error (apart from length-one broadcasting); the model
  records that case in `similar_error`.
-/

/-- Row of the listings table restricted to the columns consulted by the
price and coordinate checks; `none` models a missing value (NaN). -/
structure Row where
  price : Option ℚ
  longitude : Option ℚ
  latitude : Option ℚ
  deriving DecidableEq, Repr

/-- Model of `Series.between(lo, hi)` at one element: inclusive on both
ends, and `False` on a missing value, as pandas evaluates NaN. -/
def between (x : Option ℚ) (lo hi : ℚ) : Bool :=
  match x with
  | none => false
  | some v => decide (lo ≤ v) && decide (v ≤ hi)

/-- Expected column names of `test_column_names` (spelling as in the
source). -/
def expected_colums : List String :=
  ["id", "name", "host_id", "host_name", "neighbourhood_group",
   "neighbourhood", "latitude", "longitude", "room_type", "price",
   "minimum_nights", "number_of_reviews", "last_review",
   "reviews_per_month", "calculated_host_listings_count",
   "availability_365"]

/-- Model of `test_column_names`:
`assert list(expected_colums) == list(data.columns.values)`. -/
def test_column_names (cols : List String) : Bool :=
  decide (expected_colums = cols)

/-- Known neighbourhood names of `test_neighborhood_names`. -/
def known_names : List String :=
  ["Bronx", "Brooklyn", "Manhattan", "Queens", "Staten Island"]

/-- Model of `test_neighborhood_names`:
`assert set(known_names) == set(data['neighbourhood_group'].unique())`.
`Series.unique()` keeps a missing value as a distinct entry, so the
observed set is the set of `Option String` values of the column. -/
def test_neighborhood_names (col : List (Option String)) : Bool :=
  (known_names.map some).all (fun k => decide (k ∈ col)) &&
    col.all (fun x => decide (x ∈ known_names.map some))

/-- Row predicate of `test_proper_boundaries`:
`data['longitude'].between(-74.25, -73.50) & data['latitude'].between(40.5, 41.2)`. -/
def boundary_idx (r : Row) : Bool :=
  between r.longitude (-74.25) (-73.50) && between r.latitude (40.5) (41.2)

/-- Count of rows violating the boundary predicate: `np.sum(~idx)`. -/
def boundary_violations (data : List Row) : Nat :=
  (data.filter (fun r => ! boundary_idx r)).length

/-- Model of `test_proper_boundaries`: `assert np.sum(~idx) == 0`. -/
def test_proper_boundaries (data : List Row) : Bool :=
  decide (boundary_violations data = 0)

/-- Model of `test_row_count`: `assert 15000 < data.shape[0] < 1000000`. -/
def test_row_count (data : List Row) : Bool :=
  decide (15000 < data.length) && decide (data.length < 1000000)

/-- Model of `test_price_range`:
`assert data['price'].between(min_price, max_price).all()`. -/
def test_price_range (data : List Row) (min_price max_price : ℚ) : Bool :=
  data.all (fun r => between r.price min_price max_price)

/-- Model of the cleaning in `basic_cleaning.go`: keep the rows whose
price is between the bounds, then keep the rows inside the coordinate
box.  The `last_review` datetime conversion touches no column read
here. -/
def go (df : List Row) (min_price max_price : ℚ) : List Row :=
  let priced := df.filter (fun r => between r.price min_price max_price)
  priced.filter (fun r =>
    between r.longitude (-74.25) (-73.50) && between r.latitude (40.5) (41.2))

/-- Spec-side predicate for the coordinate box: the row's coordinates are
present and lie in the closed intervals `[-74.25, -73.50]` and
`[40.5, 41.2]`. -/
def InBox (r : Row) : Prop :=
  (∃ v, r.longitude = some v ∧ -74.25 ≤ v ∧ v ≤ -73.50) ∧
    (∃ w, r.latitude = some w ∧ 40.5 ≤ w ∧ w ≤ 41.2)

instance (r : Row) : Decidable (InBox r) :=
  decidable_of_iff (boundary_idx r = true) (by
    rcases r with ⟨p, lon, lat⟩
    rcases lon with _ | v <;> rcases lat with _ | w <;>
      simp [InBox, boundary_idx, between, and_assoc])

/-- Non-missing entries of a column, in order (`value_counts` drops
NaN). -/
def dropNone (col : List (Option String)) : List String :=
  col.filterMap id

/-- Lexicographic comparison of character lists by code point, the order
Python and pandas use on strings. -/
def charsLe : List Char → List Char → Bool
  | [], _ => true
  | _ :: _, [] => false
  | c :: cs, d :: ds =>
    if c.val < d.val then true
    else if d.val < c.val then false
    else charsLe cs ds

/-- Lexicographic comparison of strings by code point. -/
def strLe (a b : String) : Bool :=
  charsLe a.data b.data

/-- Insertion of a string into an ascending list. -/
def insertStr (s : String) : List String → List String
  | [] => [s]
  | t :: ts => if strLe s t then s :: t :: ts else t :: insertStr s ts

/-- Insertion sort in ascending label order, modelling `sort_index()`. -/
def sortStr : List String → List String
  | [] => []
  | s :: ss => insertStr s (sortStr ss)

/-- Model of `value_counts().sort_index()`: the distinct non-missing
values of the column in ascending label order, each with its number of
occurrences. -/
def value_counts (col : List (Option String)) : List (String × Nat) :=
  (sortStr (dropNone col).dedup).map (fun v => (v, (dropNone col).count v))

/-- One term of the Kullback-Leibler sum, with the `rel_entr` convention
that a term with first component `0` contributes `0`. -/
noncomputable def klTerm (p q : ℝ) : ℝ :=
  if p = 0 then 0 else p * Real.logb 2 (p / q)

/-- Sum of the KL terms over a list of aligned pairs. -/
noncomputable def klSum (l : List (ℝ × ℝ)) : ℝ :=
  (l.map (fun x => klTerm x.1 x.2)).sum

/-- Normalisation of a count vector, as `scipy.stats.entropy` performs on
both inputs. -/
noncomputable def normalizeVec (l : List ℝ) : List ℝ :=
  l.map (fun x => x / l.sum)

/-- Base-2 Kullback-Leibler divergence of two count vectors: the value of
`scipy.stats.entropy(pk, qk, base=2)` on vectors of equal length. -/
noncomputable def klDiv (p q : List ℝ) : ℝ :=
  klSum ((normalizeVec p).zip (normalizeVec q))

/-- Valid pair of count vectors: equal length, non-negative entries,
positive totals, and no zero in the reference aligned with a nonzero
target count (the definedness condition of the divergence). -/
def ValidPair (p q : List ℝ) : Prop :=
  p.length = q.length ∧ (∀ a ∈ p, 0 ≤ a) ∧ (∀ b ∈ q, 0 ≤ b) ∧
    0 < p.sum ∧ 0 < q.sum ∧ ∀ x ∈ p.zip q, x.2 = 0 → x.1 = 0

/-- Pointwise condition on one aligned pair of normalised entries. -/
def GoodPair (x : ℝ × ℝ) : Prop :=
  0 ≤ x.1 ∧ 0 ≤ x.2 ∧ (x.2 = 0 → x.1 = 0)

/-- Count vector of a column: the counts of `value_counts().sort_index()`
as real numbers, in label order. -/
noncomputable def countsVec (col : List (Option String)) : List ℝ :=
  (value_counts col).map (fun x => (x.2 : ℝ))

/-- Error case of `test_similar_neigh_distrib`: the two count vectors have
different lengths, on which NumPy raises a shape error (`value_counts`
lists only the categories that occur in each dataset). -/
def similar_error (data ref_data : List (Option String)) : Prop :=
  (value_counts data).length ≠ (value_counts ref_data).length

/-- Divergence computed by `test_similar_neigh_distrib` on the two count
vectors, which are aligned by sorted position, not by label. -/
noncomputable def similarDiv (data ref_data : List (Option String)) : ℝ :=
  klDiv (countsVec data) (countsVec ref_data)

/-- Model of `test_similar_neigh_distrib`: the assertion
`scipy.stats.entropy(dist1, dist2, base=2) < kl_threshold` completes
without a shape error and the divergence is strictly below the
threshold. -/
def test_similar_neigh_distrib (data ref_data : List (Option String))
    (kl_threshold : ℝ) : Prop :=
  ¬ similar_error data ref_data ∧ similarDiv data ref_data < kl_threshold

/-! ## Helper lemmas about the single-dataset checks -/

theorem between_iff (x : Option ℚ) (lo hi : ℚ) :
    between x lo hi = true ↔ ∃ v, x = some v ∧ lo ≤ v ∧ v ≤ hi := by
  cases x <;> simp [between]

theorem boundary_idx_iff (r : Row) : boundary_idx r = true ↔ InBox r := by
  rcases r with ⟨p, lon, lat⟩
  rcases lon with _ | v <;> rcases lat with _ | w <;>
    simp [InBox, boundary_idx, between, and_assoc]

theorem not_inBox_decide (r : Row) : (decide (¬ InBox r)) = ! boundary_idx r := by
  by_cases h : InBox r
  · simp [h, (boundary_idx_iff r).mpr h]
  · have hb : boundary_idx r = false := by
      rcases Bool.eq_false_or_eq_true (boundary_idx r) with ht | hf
      · exact absurd ((boundary_idx_iff r).mp ht) h
      · exact hf
    simp [h, hb]

/-! ## C4 -/

/-- C4: the schema shape check passes iff the dataset's column-name
sequence equals the expected sixteen-name sequence position by position;
any permutation, addition or removal of a column fails. -/
theorem column_names_pass_iff (cols : List String) :
    (test_column_names cols = true ↔
      cols.length = expected_colums.length ∧
        ∀ i, i < expected_colums.length → cols.getD i "" = expected_colums.getD i "") ∧
      expected_colums.length = 16 := by
  refine ⟨?_, by decide⟩
  simp only [test_column_names, decide_eq_true_eq]
  constructor
  · rintro rfl
    exact ⟨rfl, fun i _ => rfl⟩
  · rintro ⟨hlen, hpt⟩
    apply List.ext_getElem (by rw [hlen])
    intro i h1 h2
    have h := hpt i h1
    rw [List.getD_eq_getElem _ _ h2, List.getD_eq_getElem _ _ h1] at h
    exact h.symm

/-! ## C5 -/

/-- C5 (amended): the categorical domain check passes iff the set of
distinct values of the column, a missing value counting as one of the
distinct values, equals the expected set; in particular a column
containing a missing value always fails. -/
theorem neighborhood_names_pass_iff (col : List (Option String)) :
    (test_neighborhood_names col = true ↔
      ∀ x : Option String, x ∈ col ↔ x ∈ known_names.map some) ∧
      (none ∈ col → test_neighborhood_names col = false) := by
  have main : test_neighborhood_names col = true ↔
      ∀ x : Option String, x ∈ col ↔ x ∈ known_names.map some := by
    simp only [test_neighborhood_names, Bool.and_eq_true, List.all_eq_true,
      decide_eq_true_eq]
    constructor
    · rintro ⟨h1, h2⟩ x
      exact ⟨fun hx => h2 x hx, fun hx => h1 x hx⟩
    · intro h
      exact ⟨fun k hk => (h k).mpr hk, fun x hx => (h x).mp hx⟩
  refine ⟨main, fun hn => ?_⟩
  rcases Bool.eq_false_or_eq_true (test_neighborhood_names col) with ht | hf
  swap
  · exact hf
  · exfalso
    have := (main.mp ht none).mp hn
    simp at this

/-- C5 witness: a concrete column containing a missing value fails. -/
theorem neighborhood_names_pass_iff_witness :
    test_neighborhood_names ((known_names.map some) ++ [none]) = false :=
  (neighborhood_names_pass_iff _).2 (by decide)

/-- C5 counterexample: a column whose distinct non-missing values are
exactly the five known names, plus one missing entry, fails the check,
although the claim says missing entries do not affect the outcome. -/
theorem neighborhood_names_null_flips :
    (dropNone ((known_names.map some) ++ [none])).dedup = known_names ∧
      test_neighborhood_names ((known_names.map some) ++ [none]) = false := by
  decide

/-! ## C6 -/

/-- C6: the geographic bound check passes iff every row's coordinate pair
is present and lies in the closed intervals `[-74.25, -73.50]` and
`[40.5, 41.2]`, and the violation count equals the number of rows lying
outside the box. -/
theorem proper_boundaries_pass_iff (data : List Row) :
    (test_proper_boundaries data = true ↔ ∀ r ∈ data, InBox r) ∧
      boundary_violations data = (data.filter (fun r => decide (¬ InBox r))).length := by
  constructor
  · simp only [test_proper_boundaries, boundary_violations, decide_eq_true_eq,
      List.length_eq_zero, List.filter_eq_nil_iff]
    constructor
    · intro h r hr
      have := h r hr
      simp only [Bool.not_eq_true', Bool.not_eq_false] at this
      exact (boundary_idx_iff r).mp this
    · intro h r hr
      simp only [Bool.not_eq_true', Bool.not_eq_false]
      exact (boundary_idx_iff r).mpr (h r hr)
  · unfold boundary_violations
    congr 1
    apply List.filter_congr
    intro r _
    exact (not_inBox_decide r).symm

/-! ## C7 -/

/-- C7: the row count check treats both bounds as exclusive: exactly
15000 rows fail, 15001 pass, 999999 pass, 1000000 fail. -/
theorem row_count_exclusive_bounds (data : List Row) :
    (test_row_count data = true ↔ 15000 < data.length ∧ data.length < 1000000) ∧
      test_row_count (List.replicate 15000 ⟨none, none, none⟩) = false ∧
      test_row_count (List.replicate 15001 ⟨none, none, none⟩) = true ∧
      test_row_count (List.replicate 999999 ⟨none, none, none⟩) = true ∧
      test_row_count (List.replicate 1000000 ⟨none, none, none⟩) = false := by
  refine ⟨by simp [test_row_count], ?_, ?_, ?_, ?_⟩ <;>
    norm_num [test_row_count, List.length_replicate]

/-! ## C8 -/

/-- C8: the numeric range check on the price column passes iff every
price is present and lies in the closed interval `[min, max]`; the
boundary values pass and a price of 501 against max 500 fails. -/
theorem price_range_pass_iff (data : List Row) (min_price max_price : ℚ) :
    (test_price_range data min_price max_price = true ↔
      ∀ r ∈ data, ∃ v, r.price = some v ∧ min_price ≤ v ∧ v ≤ max_price) ∧
      test_price_range [⟨some 501, none, none⟩] 10 500 = false ∧
      test_price_range [⟨some 10, none, none⟩, ⟨some 500, none, none⟩] 10 500 = true := by
  refine ⟨?_, by decide, by decide⟩
  simp only [test_price_range, List.all_eq_true, between_iff]

/-! ## C9 -/

/-- C9: the cleaning stage's output passes the numeric range check with
the same price bounds and passes the geographic bound check with the
default box. -/
theorem cleaning_output_passes_checks (df : List Row) (min_price max_price : ℚ) :
    test_price_range (go df min_price max_price) min_price max_price = true ∧
      test_proper_boundaries (go df min_price max_price) = true := by
  have hbox : ∀ r ∈ go df min_price max_price, boundary_idx r = true := by
    intro r hr
    exact List.of_mem_filter hr
  constructor
  · simp only [test_price_range, List.all_eq_true]
    intro r hr
    have hr1 : r ∈ df.filter (fun r => between r.price min_price max_price) :=
      List.mem_of_mem_filter hr
    have hp := List.of_mem_filter hr1
    exact hp
  · simp only [test_proper_boundaries, boundary_violations, decide_eq_true_eq,
      List.length_eq_zero, List.filter_eq_nil_iff]
    intro r hr
    simp [hbox r hr]

/-! ## C10 -/

/-- C10: a missing longitude or latitude makes the row count as a
boundary violation and the geographic check fail, and a missing price
makes the numeric range check fail: missing values never pass. -/
theorem null_values_fail_range_checks (data : List Row) (min_price max_price : ℚ)
    (r : Row) (hr : r ∈ data) :
    ((r.longitude = none ∨ r.latitude = none) →
      boundary_idx r = false ∧ 1 ≤ boundary_violations data ∧
        test_proper_boundaries data = false) ∧
    (r.price = none → test_price_range data min_price max_price = false) := by
  constructor
  · intro h
    have hidx : boundary_idx r = false := by
      rcases h with h | h <;> simp [boundary_idx, h, between]
    have hmem : r ∈ data.filter (fun r => ! boundary_idx r) :=
      List.mem_filter.mpr ⟨hr, by simp [hidx]⟩
    have hpos : 0 < boundary_violations data :=
      List.length_pos.mpr (List.ne_nil_of_mem hmem)
    refine ⟨hidx, hpos, ?_⟩
    simp only [test_proper_boundaries, decide_eq_false_iff_not]
    omega
  · intro h
    have hb : between r.price min_price max_price = false := by
      simp [h, between]
    simp only [test_price_range, List.all_eq_false]
    exact ⟨r, hr, by simp [hb]⟩

/-- C10 witness: a concrete one-row dataset with all three values
missing fails both checks. -/
theorem null_values_fail_range_checks_witness :
    boundary_idx ⟨none, none, none⟩ = false ∧
      test_proper_boundaries [⟨none, none, none⟩] = false ∧
      test_price_range [⟨none, none, none⟩] 10 500 = false := by
  have h := null_values_fail_range_checks [⟨none, none, none⟩] 10 500
    ⟨none, none, none⟩ (by simp)
  obtain ⟨h1, h2⟩ := h
  obtain ⟨ha, -, hc⟩ := h1 (Or.inl rfl)
  exact ⟨ha, hc, h2 rfl⟩

/-! ## Helper lemmas for the Kullback-Leibler divergence -/

theorem log_two_pos : 0 < Real.log 2 := Real.log_pos (by norm_num)

theorem klTerm_self (a : ℝ) : klTerm a a = 0 := by
  unfold klTerm
  by_cases h : a = 0
  · simp [h]
  · simp [h, div_self h, Real.logb_one]

theorem klTerm_ge (a b : ℝ) (h : GoodPair (a, b)) :
    (a - b) / Real.log 2 ≤ klTerm a b := by
  obtain ⟨ha, hb, hz⟩ := h
  by_cases h0 : a = 0
  · subst h0
    rw [klTerm, if_pos rfl]
    apply div_nonpos_of_nonpos_of_nonneg (by simpa using hb) log_two_pos.le
  · have ha' : 0 < a := lt_of_le_of_ne ha (Ne.symm h0)
    have hb' : 0 < b := lt_of_le_of_ne hb (fun hbe => h0 (hz hbe.symm))
    have hinv : Real.log (a / b) = - Real.log (b / a) := by
      rw [← Real.log_inv]
      congr 1
      rw [inv_div]
    have hlog : Real.log (b / a) ≤ b / a - 1 :=
      Real.log_le_sub_one_of_pos (div_pos hb' ha')
    have hba : a * (b / a) = b := by field_simp
    have hmul : a * Real.log (b / a) ≤ b - a := by
      have := mul_le_mul_of_nonneg_left hlog ha'.le
      calc a * Real.log (b / a) ≤ a * (b / a - 1) := this
        _ = b - a := by rw [mul_sub, hba, mul_one]
    have key : a - b ≤ a * Real.log (a / b) := by
      rw [hinv, mul_neg]
      linarith
    rw [klTerm, if_neg h0, Real.logb]
    rw [mul_div_assoc']
    rw [div_le_div_iff₀ log_two_pos log_two_pos]
    nlinarith [log_two_pos]

theorem klTerm_eq (a b : ℝ) (h : GoodPair (a, b))
    (he : klTerm a b = (a - b) / Real.log 2) : a = b := by
  obtain ⟨ha, hb, hz⟩ := h
  by_cases h0 : a = 0
  · subst h0
    rw [klTerm, if_pos rfl] at he
    have hne := log_two_pos.ne'
    field_simp at he
    linarith [he]
  · have ha' : 0 < a := lt_of_le_of_ne ha (Ne.symm h0)
    have hb' : 0 < b := lt_of_le_of_ne hb (fun hbe => h0 (hz hbe.symm))
    rw [klTerm, if_neg h0, Real.logb, mul_div_assoc'] at he
    have he' : a * Real.log (a / b) = a - b := by
      have hne := log_two_pos.ne'
      field_simp at he
      linarith [he]
    by_contra hne
    have hba1 : b / a ≠ 1 := by
      intro h1
      apply hne
      field_simp at h1
      linarith
    have hlt : Real.log (b / a) < b / a - 1 :=
      Real.log_lt_sub_one_of_pos (div_pos hb' ha') hba1
    have hinv : Real.log (a / b) = - Real.log (b / a) := by
      rw [← Real.log_inv]
      congr 1
      rw [inv_div]
    have hba : a * (b / a) = b := by field_simp
    have h2 : a * Real.log (b / a) < b - a := by
      have := mul_lt_mul_of_pos_left hlt ha'
      calc a * Real.log (b / a) < a * (b / a - 1) := this
        _ = b - a := by rw [mul_sub, hba, mul_one]
    rw [hinv, mul_neg] at he'
    linarith

theorem klSum_zip_self (l : List ℝ) : klSum (l.zip l) = 0 := by
  induction l with
  | nil => rfl
  | cons a t ih => simp [klSum, klTerm_self] at ih ⊢; exact ih

theorem sum_map_sub_div (l : List (ℝ × ℝ)) :
    (l.map (fun x => (x.1 - x.2) / Real.log 2)).sum
      = ((l.map Prod.fst).sum - (l.map Prod.snd).sum) / Real.log 2 := by
  induction l with
  | nil => simp
  | cons x t ih => simp [ih]; ring

theorem klSum_ge (l : List (ℝ × ℝ)) (h : ∀ x ∈ l, GoodPair x) :
    ((l.map Prod.fst).sum - (l.map Prod.snd).sum) / Real.log 2 ≤ klSum l := by
  rw [← sum_map_sub_div]
  exact List.sum_le_sum (fun x hx => klTerm_ge x.1 x.2 (h x hx))

theorem sum_squeeze {α : Type} (l : List α) (F G : α → ℝ)
    (hle : ∀ x ∈ l, G x ≤ F x) (hsum : (l.map F).sum ≤ (l.map G).sum) :
    ∀ x ∈ l, F x = G x := by
  induction l with
  | nil => simp
  | cons a t ih =>
    have h1 : G a ≤ F a := hle a (by simp)
    have h2 : (t.map G).sum ≤ (t.map F).sum :=
      List.sum_le_sum (fun x hx => hle x (List.mem_cons_of_mem _ hx))
    simp only [List.map_cons, List.sum_cons] at hsum
    have hFa : F a = G a := by linarith
    intro x hx
    rcases List.mem_cons.mp hx with rfl | hx'
    · exact hFa
    · exact ih (fun y hy => hle y (List.mem_cons_of_mem _ hy)) (by linarith) x hx'

theorem klSum_eq_zero_pointwise (l : List (ℝ × ℝ)) (h : ∀ x ∈ l, GoodPair x)
    (hsum : (l.map Prod.fst).sum = (l.map Prod.snd).sum) (h0 : klSum l = 0) :
    ∀ x ∈ l, x.1 = x.2 := by
  have hG : (l.map (fun x => (x.1 - x.2) / Real.log 2)).sum = 0 := by
    rw [sum_map_sub_div, hsum]
    simp
  have key : ∀ x ∈ l, klTerm x.1 x.2 = (x.1 - x.2) / Real.log 2 := by
    apply sum_squeeze l _ _ (fun x hx => klTerm_ge x.1 x.2 (h x hx))
    rw [hG]
    exact le_of_eq h0
  intro x hx
  exact klTerm_eq x.1 x.2 (h x hx) (key x hx)

theorem zip_mem_mem {α β : Type} : ∀ (p : List α) (q : List β) (x : α × β),
    x ∈ p.zip q → x.1 ∈ p ∧ x.2 ∈ q := by
  intro p
  induction p with
  | nil => intro q x hx; simp at hx
  | cons a t ih =>
    intro q x hx
    cases q with
    | nil => simp at hx
    | cons b s =>
      rcases List.mem_cons.mp hx with rfl | hx'
      · exact ⟨List.mem_cons_self _ _, List.mem_cons_self _ _⟩
      · obtain ⟨h1, h2⟩ := ih s x hx'
        exact ⟨List.mem_cons_of_mem _ h1, List.mem_cons_of_mem _ h2⟩

theorem zip_map_mem {α β γ δ : Type} :
    ∀ (p : List α) (q : List β) (f : α → γ) (g : β → δ) (x : γ × δ),
    x ∈ (p.map f).zip (q.map g) → ∃ y ∈ p.zip q, x = (f y.1, g y.2) := by
  intro p
  induction p with
  | nil => intro q f g x hx; simp at hx
  | cons a t ih =>
    intro q f g x hx
    cases q with
    | nil => simp at hx
    | cons b s =>
      rcases List.mem_cons.mp hx with rfl | hx'
      · exact ⟨(a, b), List.mem_cons_self _ _, rfl⟩
      · obtain ⟨y, hy, hxy⟩ := ih s f g x hx'
        exact ⟨y, List.mem_cons_of_mem _ hy, hxy⟩

theorem zip_eq_of_pointwise : ∀ (p q : List ℝ), p.length = q.length →
    (∀ x ∈ p.zip q, x.1 = x.2) → p = q := by
  intro p
  induction p with
  | nil =>
    intro q h _
    cases q with
    | nil => rfl
    | cons b s => simp at h
  | cons a t ih =>
    intro q h hx
    cases q with
    | nil => simp at h
    | cons b s =>
      have hab : a = b := hx (a, b) (List.mem_cons_self _ _)
      have hts : t = s := ih s (by simpa using h)
        (fun x hx' => hx x (List.mem_cons_of_mem _ hx'))
      rw [hab, hts]

theorem sum_map_div (l : List ℝ) (s : ℝ) :
    (l.map (fun x => x / s)).sum = l.sum / s := by
  induction l with
  | nil => simp
  | cons a t ih => simp [ih, add_div]

theorem normalizeVec_sum (l : List ℝ) (h : l.sum ≠ 0) : (normalizeVec l).sum = 1 := by
  unfold normalizeVec
  rw [sum_map_div, div_self h]

theorem normalizeVec_length (l : List ℝ) : (normalizeVec l).length = l.length := by
  simp [normalizeVec]

theorem normalizeVec_zip_good (p q : List ℝ)
    (hp : ∀ a ∈ p, 0 ≤ a) (hq : ∀ b ∈ q, 0 ≤ b)
    (hps : 0 < p.sum) (hqs : 0 < q.sum)
    (hz : ∀ x ∈ p.zip q, x.2 = 0 → x.1 = 0) :
    ∀ x ∈ (normalizeVec p).zip (normalizeVec q), GoodPair x := by
  intro x hx
  obtain ⟨y, hy, rfl⟩ := zip_map_mem p q (fun v => v / p.sum) (fun v => v / q.sum) x hx
  obtain ⟨hy1, hy2⟩ := zip_mem_mem p q y hy
  refine ⟨div_nonneg (hp _ hy1) hps.le, div_nonneg (hq _ hy2) hqs.le, ?_⟩
  intro h2
  have hy20 : y.2 = 0 := by
    rcases div_eq_zero_iff.mp h2 with h | h
    · exact h
    · exact absurd h hqs.ne'
  rw [hz y hy hy20, zero_div]

theorem klDiv_self (p : List ℝ) : klDiv p p = 0 :=
  klSum_zip_self (normalizeVec p)

theorem klDiv_sums (p q : List ℝ) (hlen : p.length = q.length)
    (hps : 0 < p.sum) (hqs : 0 < q.sum) :
    ((((normalizeVec p).zip (normalizeVec q)).map Prod.fst).sum = 1 ∧
      (((normalizeVec p).zip (normalizeVec q)).map Prod.snd).sum = 1) := by
  constructor
  · rw [List.map_fst_zip _ _ (by rw [normalizeVec_length, normalizeVec_length, hlen])]
    exact normalizeVec_sum p hps.ne'
  · rw [List.map_snd_zip _ _ (by rw [normalizeVec_length, normalizeVec_length, hlen])]
    exact normalizeVec_sum q hqs.ne'

theorem klDiv_nonneg (p q : List ℝ) (h : ValidPair p q) : 0 ≤ klDiv p q := by
  obtain ⟨hlen, hp, hq, hps, hqs, hz⟩ := h
  obtain ⟨h1, h2⟩ := klDiv_sums p q hlen hps hqs
  have hge := klSum_ge _ (normalizeVec_zip_good p q hp hq hps hqs hz)
  rw [h1, h2] at hge
  simpa using hge

theorem klDiv_eq_zero_iff (p q : List ℝ) (h : ValidPair p q) :
    klDiv p q = 0 ↔ normalizeVec p = normalizeVec q := by
  obtain ⟨hlen, hp, hq, hps, hqs, hz⟩ := h
  constructor
  · intro h0
    obtain ⟨h1, h2⟩ := klDiv_sums p q hlen hps hqs
    apply zip_eq_of_pointwise _ _ (by rw [normalizeVec_length, normalizeVec_length, hlen])
    exact klSum_eq_zero_pointwise _ (normalizeVec_zip_good p q hp hq hps hqs hz)
      (h1.trans h2.symm) h0
  · intro he
    unfold klDiv
    rw [he]
    exact klSum_zip_self _

/-! ## C1 -/

/-- C1: on a valid pair of count distributions the divergence estimator
returns 0 on the pair (P, P), is non-negative on (P, Q), and is 0
exactly when the two aligned empirical distributions — the normalised
count vectors compared by `scipy.stats.entropy` — are identical. -/
theorem kl_divergence_nonneg_zero_iff (p q : List ℝ) (h : ValidPair p q) :
    klDiv p p = 0 ∧ 0 ≤ klDiv p q ∧
      (klDiv p q = 0 ↔ normalizeVec p = normalizeVec q) :=
  ⟨klDiv_self p, klDiv_nonneg p q h, klDiv_eq_zero_iff p q h⟩

/-- C1 witness: the concrete valid pair of count vectors [1, 2] and
[2, 1]. -/
theorem kl_divergence_nonneg_zero_iff_witness :
    ValidPair [1, 2] [2, 1] ∧
      (klDiv [1, 2] [1, 2] = 0 ∧ 0 ≤ klDiv [1, 2] [2, 1] ∧
        (klDiv [1, 2] [2, 1] = 0 ↔ normalizeVec [1, 2] = normalizeVec [2, 1])) := by
  have hv : ValidPair [1, 2] [2, 1] := by
    norm_num [ValidPair]
  exact ⟨hv, kl_divergence_nonneg_zero_iff _ _ hv⟩

/-! ## C2 -/

/-- C2 counterexample: on a concrete pair of identical one-category
datasets the computed divergence equals the threshold 0, yet the check
fails, so a divergence exactly equal to the threshold is not a pass. -/
theorem similar_threshold_equality_fails :
    similarDiv [some "Bronx"] [some "Bronx"] = 0 ∧
      ¬ test_similar_neigh_distrib [some "Bronx"] [some "Bronx"] 0 := by
  have h0 : similarDiv [some "Bronx"] [some "Bronx"] = 0 := klDiv_self _
  refine ⟨h0, ?_⟩
  rintro ⟨-, hlt⟩
  rw [h0] at hlt
  exact lt_irrefl 0 hlt

/-- C2 (amended): the distribution similarity check passes exactly when
the computed divergence is strictly below the threshold; a divergence
equal to the threshold fails. -/
theorem similar_pass_strictly_below (data ref_data : List (Option String)) (t : ℝ) :
    (similarDiv data ref_data = t → ¬ test_similar_neigh_distrib data ref_data t) ∧
      (¬ similar_error data ref_data → similarDiv data ref_data < t →
        test_similar_neigh_distrib data ref_data t) := by
  constructor
  · rintro he ⟨-, hlt⟩
    rw [he] at hlt
    exact lt_irrefl t hlt
  · intro h1 h2
    exact ⟨h1, h2⟩

/-- C2 witness: at the concrete pair of identical one-category datasets,
threshold 0 (equal to the divergence) fails and threshold 1 (strictly
above the divergence) passes. -/
theorem similar_pass_strictly_below_witness :
    ¬ test_similar_neigh_distrib [some "Bronx"] [some "Bronx"] 0 ∧
      test_similar_neigh_distrib [some "Bronx"] [some "Bronx"] 1 := by
  constructor
  · exact (similar_pass_strictly_below _ _ 0).1 (klDiv_self _)
  · apply (similar_pass_strictly_below _ _ 1).2
    · intro h
      exact h rfl
    · rw [show similarDiv [some "Bronx"] [some "Bronx"] = 0 from klDiv_self _]
      norm_num

/-! ## C3 -/

/-- C3 counterexample: the reference dataset has a zero count for the
category Brooklyn whose target count is nonzero, and the two category
sets have the same size; the check raises no error, silently computes
the divergence 0 of the misaligned count vectors, and passes at
threshold 1 — it does not surface any distinct error. -/
theorem similar_zero_reference_silently_passes :
    (dropNone [some "Bronx", some "Queens"]).count "Brooklyn" = 0 ∧
      (dropNone [some "Bronx", some "Brooklyn"]).count "Brooklyn" = 1 ∧
      ¬ similar_error [some "Bronx", some "Brooklyn"] [some "Bronx", some "Queens"] ∧
      similarDiv [some "Bronx", some "Brooklyn"] [some "Bronx", some "Queens"] = 0 ∧
      test_similar_neigh_distrib [some "Bronx", some "Brooklyn"]
        [some "Bronx", some "Queens"] 1 := by
  have hd : countsVec [some "Bronx", some "Brooklyn"] = [(1 : ℝ), 1] := by
    have h : value_counts [some "Bronx", some "Brooklyn"]
        = [("Bronx", 1), ("Brooklyn", 1)] := by decide
    unfold countsVec
    rw [h]
    norm_num
  have hr : countsVec [some "Bronx", some "Queens"] = [(1 : ℝ), 1] := by
    have h : value_counts [some "Bronx", some "Queens"]
        = [("Bronx", 1), ("Queens", 1)] := by decide
    unfold countsVec
    rw [h]
    norm_num
  have hdiv : similarDiv [some "Bronx", some "Brooklyn"]
      [some "Bronx", some "Queens"] = 0 := by
    unfold similarDiv
    rw [hd, hr]
    exact klDiv_self _
  have herr : ¬ similar_error [some "Bronx", some "Brooklyn"]
      [some "Bronx", some "Queens"] := fun h => h (by decide)
  refine ⟨by decide, by decide, herr, hdiv, herr, ?_⟩
  rw [hdiv]
  norm_num

/-- C3 (amended): when the reference distribution has a zero count for a
category whose target count is nonzero but the two datasets have the
same number of distinct categories, the check surfaces no error at all:
it compares the divergence of the positionally aligned count vectors
against the threshold as an ordinary pass/fail; only a differing number
of distinct categories aborts the check, with a generic shape error. -/
theorem similar_mismatch_not_distinct_error (data ref_data : List (Option String))
    (t : ℝ) (c : String) (_hc0 : (dropNone ref_data).count c = 0)
    (_hc1 : (dropNone data).count c ≠ 0)
    (hlen : (value_counts data).length = (value_counts ref_data).length) :
    ¬ similar_error data ref_data ∧
      (test_similar_neigh_distrib data ref_data t ↔
        similarDiv data ref_data < t) := by
  refine ⟨fun h => h hlen, ?_⟩
  constructor
  · rintro ⟨-, h⟩
    exact h
  · intro h
    exact ⟨fun he => he hlen, h⟩

/-- C3 witness: the concrete mismatched pair with category Brooklyn
absent from the reference. -/
theorem similar_mismatch_not_distinct_error_witness :
    ¬ similar_error [some "Bronx", some "Brooklyn"] [some "Bronx", some "Queens"] ∧
      (test_similar_neigh_distrib [some "Bronx", some "Brooklyn"]
          [some "Bronx", some "Queens"] 1 ↔
        similarDiv [some "Bronx", some "Brooklyn"] [some "Bronx", some "Queens"] < 1) :=
  similar_mismatch_not_distinct_error _ _ 1 "Brooklyn" (by decide) (by decide) (by decide)
